import Mathlib

/-!
Verification of the File-Parser analysis service against its specification.
The Python sources under `analysis_service/` are shallowly embedded below:
pure parsing routines become Lean functions over explicit models of XML
trees, HTML trees, filesystem listings and plugin state.  Float-valued
duration fields are outside the embedding (no claim concerns them); all
counters are natural numbers, with Python's possibly-negative subtraction
carried out in `Int` where the source does arithmetic on it.
-/

namespace FileParser

/-! ## Python string primitives -/

/-- Characters treated as whitespace by Python's `str.strip()` (ASCII part,
which covers every string the embedded code manipulates). -/
def pyIsSpace (c : Char) : Bool :=
  c == ' ' || c == '\t' || c == '\n' || c == '\x0d' || c == '\x0b' || c == '\x0c'

/-- Python `str.strip()`. -/
def pyStrip (s : String) : String :=
  String.mk (((s.data.dropWhile pyIsSpace).reverse.dropWhile pyIsSpace).reverse)

/-- ASCII lower-casing of one character, as Python `str.lower()` acts on ASCII. -/
def lowerChar (c : Char) : Char :=
  if 'A' ≤ c ∧ c ≤ 'Z' then Char.ofNat (c.toNat + 32) else c

/-- ASCII upper-casing of one character, as Python `str.upper()` acts on ASCII. -/
def upperChar (c : Char) : Char :=
  if 'a' ≤ c ∧ c ≤ 'z' then Char.ofNat (c.toNat - 32) else c

/-- Python `str.lower()` (ASCII fragment). -/
def pyLower (s : String) : String := String.mk (s.data.map lowerChar)

/-- Python `str.upper()` (ASCII fragment). -/
def pyUpper (s : String) : String := String.mk (s.data.map upperChar)

/-- Split a character list at every occurrence of a separator character,
keeping empty pieces — Python `str.split(sep)` for a one-character `sep`. -/
def splitChar (sep : Char) : List Char → List (List Char)
  | [] => [[]]
  | c :: rest =>
      if c = sep then [] :: splitChar sep rest
      else
        match splitChar sep rest with
        | [] => [[c]]
        | g :: gs => (c :: g) :: gs

/-- Python `s.split(sep)` for a one-character separator. -/
def pySplitChar (sep : Char) (s : String) : List String :=
  (splitChar sep s.data).map String.mk

/-- Python slice `s[:n]` on a string. -/
def strTake (s : String) (n : Nat) : String := String.mk (s.data.take n)

/-- Python `sep.join(parts)`. -/
def joinWith (sep : String) : List String → String
  | [] => ""
  | [x] => x
  | x :: xs => x ++ sep ++ joinWith sep xs

/-- Python `s.endswith(suffix)`. -/
def strEndsWith (s suffix : String) : Bool :=
  s.data.drop (s.data.length - suffix.data.length) == suffix.data

/-- Python's `needle in haystack` substring test. -/
def strContains (haystack needle : String) : Bool :=
  (List.range (haystack.data.length + 1)).any
    (fun i => needle.data.isPrefixOf (haystack.data.drop i))

/-- Python slice `l[-n:]`: the last `n` elements (the whole list when shorter). -/
def lastN {α : Type} (n : Nat) (l : List α) : List α :=
  l.drop (l.length - n)

/-- Python truthiness of a string: nonempty. -/
def pyTruthy (s : String) : Bool := s ≠ ""

/-! ## XML element model (xml.etree.ElementTree fragment)

An element has a tag, attributes, text (the text node directly after the
opening tag, `None` when absent) and a list of child elements. -/

inductive XElem where
  | mk (tag : String) (attrs : List (String × String)) (text : Option String)
       (children : List XElem)
deriving Repr

def XElem.tag : XElem → String
  | .mk t _ _ _ => t

def XElem.attrs : XElem → List (String × String)
  | .mk _ a _ _ => a

def XElem.text : XElem → Option String
  | .mk _ _ x _ => x

def XElem.children : XElem → List XElem
  | .mk _ _ _ cs => cs

/-- `elem.get(key)` : first attribute with the given name, if any. -/
def XElem.attr (e : XElem) (key : String) : Option String :=
  (e.attrs.find? (fun kv => kv.1 == key)).map (fun kv => kv.2)

/-- `elem.get(key, default)`. -/
def XElem.attrD (e : XElem) (key dflt : String) : String :=
  (e.attr key).getD dflt

/-- `elem.find(tag)` : first direct child with the given tag. -/
def XElem.findChild (e : XElem) (tag : String) : Option XElem :=
  e.children.find? (fun c => c.tag == tag)

/-- `elem.findall(tag)` : all direct children with the given tag, in order. -/
def XElem.findallChild (e : XElem) (tag : String) : List XElem :=
  e.children.filter (fun c => c.tag == tag)

mutual
/-- The element itself (when its tag matches) followed by its matching
descendants, in document order — the per-subtree step of `findall('.//tag')`. -/
def selfAndDesc (tag : String) : XElem → List XElem
  | .mk t a x cs =>
      (if t == tag then [XElem.mk t a x cs] else []) ++ descList tag cs

/-- Matching elements of a forest of subtrees, in document order. -/
def descList (tag : String) : List XElem → List XElem
  | [] => []
  | c :: cs => selfAndDesc tag c ++ descList tag cs
end

/-- `elem.findall('.//tag')` : matching descendants (excluding the element
itself), in document order. -/
def XElem.findallDesc (e : XElem) (tag : String) : List XElem :=
  descList tag e.children

/-- `elem.find('.//tag')` : first matching descendant. -/
def XElem.findDesc (e : XElem) (tag : String) : Option XElem :=
  (e.findallDesc tag).head?

/-! ## TempestXMLParser (analysis_service/parsers/tempest_xml.py)

JUnit-style XML.  `parse` walks `testsuite`/`testcase` elements, buckets each
testcase by its first `failure`/`error`/`skipped` child, and computes `passed`
by clamped subtraction. -/

structure TempestFailureRec where
  test_name : String
  class_name : String
  error_message : String
  traceback : String
  failure_type : String
deriving Repr, DecidableEq

structure TempestResults where
  total_tests : Nat
  passed : Nat
  failed : Nat
  skipped : Nat
  errors : Nat
  failures : List TempestFailureRec
deriving Repr, DecidableEq

/-- Skip-reason selection in `_parse_testcase`: the `message` attribute, else
the stripped element text, else a fixed default. -/
def skipMessageOf (sk : XElem) : String :=
  let m1 := sk.attrD "message" ""
  let m2 := if m1 = "" ∧ pyTruthy (sk.text.getD "") then pyStrip (sk.text.getD "") else m1
  if m2 = "" then "Test skipped (no reason provided)" else m2

/-- `TempestXMLParser._parse_testcase`: classify one `testcase` element and
update the running results.  (The float `time` attribute is not modelled.) -/
def parseTestcase (tc : XElem) (r : TempestResults) : TempestResults :=
  let test_name := tc.attrD "name" "Unknown"
  let class_name := tc.attrD "classname" "Unknown"
  match tc.findChild "failure" with
  | some f =>
      { r with failed := r.failed + 1,
               failures := r.failures ++
                 [⟨test_name, class_name, f.attrD "message" "", f.text.getD "", "failure"⟩] }
  | none =>
    match tc.findChild "error" with
    | some e =>
        { r with errors := r.errors + 1,
                 failures := r.failures ++
                   [⟨test_name, class_name, e.attrD "message" "", e.text.getD "", "error"⟩] }
    | none =>
      match tc.findChild "skipped" with
      | some sk =>
          { r with skipped := r.skipped + 1,
                   failures := r.failures ++
                     [⟨test_name, class_name, skipMessageOf sk, "", "skip"⟩] }
      | none => r

/-- One step of the `testcase` loop of `_parse_testsuite`: parse the testcase,
then count it in `total_tests`. -/
def testcaseStep (r : TempestResults) (tc : XElem) : TempestResults :=
  let r2 := parseTestcase tc r
  { r2 with total_tests := r2.total_tests + 1 }

/-- `TempestXMLParser._parse_testsuite` (duration accumulation not modelled). -/
def parseTestsuite (ts : XElem) (r : TempestResults) : TempestResults :=
  (ts.findallChild "testcase").foldl testcaseStep r

/-- The testsuite walk of `TempestXMLParser.parse`, before the `passed`
computation. -/
def tempestBody (root : XElem) : TempestResults :=
  let r0 : TempestResults := ⟨0, 0, 0, 0, 0, []⟩
  if root.tag == "testsuites" then
    (root.findallChild "testsuite").foldl (fun acc ts => parseTestsuite ts acc) r0
  else if root.tag == "testsuite" then parseTestsuite root r0
  else r0

/-- `TempestXMLParser.parse` on an already-parsed XML root element: walk the
testsuites, then set `passed` to the zero-clamped subtraction. -/
def tempestParse (root : XElem) : TempestResults :=
  let r1 := tempestBody root
  let d : Int := (r1.total_tests : Int) - r1.failed - r1.skipped - r1.errors
  { r1 with passed := if d < 0 then 0 else d.toNat }

/-- Sum of the non-passed buckets of a Tempest result. -/
def bucketSum (r : TempestResults) : Nat := r.failed + r.skipped + r.errors

lemma parseTestcase_total (tc : XElem) (r : TempestResults) :
    (parseTestcase tc r).total_tests = r.total_tests := by
  unfold parseTestcase
  rcases tc.findChild "failure" with _ | f
  · rcases tc.findChild "error" with _ | e
    · rcases tc.findChild "skipped" with _ | sk
      · simp
      · simp
    · simp
  · simp

lemma parseTestcase_buckets_le (tc : XElem) (r : TempestResults) :
    bucketSum (parseTestcase tc r) ≤ bucketSum r + 1 := by
  unfold parseTestcase bucketSum
  rcases tc.findChild "failure" with _ | f
  · rcases tc.findChild "error" with _ | e
    · rcases tc.findChild "skipped" with _ | sk
      · simp
      · simp
        omega
    · simp
      omega
  · simp
    omega

lemma testcaseStep_inv (r : TempestResults) (tc : XElem)
    (h : bucketSum r ≤ r.total_tests) :
    bucketSum (testcaseStep r tc) ≤ (testcaseStep r tc).total_tests := by
  have h1 := parseTestcase_buckets_le tc r
  have h2 := parseTestcase_total tc r
  show (parseTestcase tc r).failed + (parseTestcase tc r).skipped +
      (parseTestcase tc r).errors ≤ (parseTestcase tc r).total_tests + 1
  unfold bucketSum at h1 h
  omega

lemma foldl_testcase_inv (l : List XElem) (r : TempestResults)
    (h : bucketSum r ≤ r.total_tests) :
    bucketSum (l.foldl testcaseStep r) ≤ (l.foldl testcaseStep r).total_tests := by
  induction l generalizing r with
  | nil => simpa using h
  | cons tc rest ih =>
      simp only [List.foldl_cons]
      exact ih _ (testcaseStep_inv r tc h)

lemma parseTestsuite_inv (ts : XElem) (r : TempestResults)
    (h : bucketSum r ≤ r.total_tests) :
    bucketSum (parseTestsuite ts r) ≤ (parseTestsuite ts r).total_tests :=
  foldl_testcase_inv _ r h

lemma foldl_testsuite_inv (l : List XElem) (r : TempestResults)
    (h : bucketSum r ≤ r.total_tests) :
    bucketSum (l.foldl (fun acc ts => parseTestsuite ts acc) r) ≤
      (l.foldl (fun acc ts => parseTestsuite ts acc) r).total_tests := by
  induction l generalizing r with
  | nil => simpa using h
  | cons ts rest ih =>
      simp only [List.foldl_cons]
      exact ih _ (parseTestsuite_inv ts r h)

/-! ## RHCertXMLParser (analysis_service/parsers/rhcert_xml.py)

Certification XML.  `parse` walks every `<test>` descendant and, inside it,
every `<run>` descendant; each run increments `total_tests` and, when a
`<summary>` child is present, exactly one of the five status buckets.  The
metadata extraction (certification/product/platform info, plan components)
touches no counter and no failure record and is not modelled. -/

structure RHFailureRec where
  test_name : String
  class_name : String
  error_message : String
  traceback : String
  failure_type : String
  run_time : String
  end_time : String
  /-- `failed_commands_count`, present only on FAIL records (`none` on
  review records, whose dict lacks the key). -/
  failed_commands_count : Option Nat
deriving Repr, DecidableEq

structure RHResults where
  total_tests : Nat
  passed : Nat
  failed : Nat
  skipped : Nat
  errors : Nat
  review : Nat
  failures : List RHFailureRec
deriving Repr, DecidableEq

/-- Tokens `_parse_failure` looks for in output lines. -/
def errorTokens : List String := ["error", "fail", "exception", "traceback"]

/-- Output lines of a run: stripped text of the first `.//output` descendant,
split on newlines; empty when the element is missing or its text is falsy. -/
def outputLines (run : XElem) : List String :=
  match run.findDesc "output" with
  | some o =>
      match o.text with
      | some t => if t ≠ "" then pySplitChar '\n' (pyStrip t) else []
      | none => []
  | none => []

/-- Lines whose lower-casing contains one of the four error tokens. -/
def errLines (lines : List String) : List String :=
  lines.filter (fun l => errorTokens.any (fun w => strContains (pyLower l) w))

/-- Fallback: non-blank lines among the last 10 output lines. -/
def fallbackLines (lines : List String) : List String :=
  (lastN 10 lines).filter (fun l => pyTruthy (pyStrip l))

/-- The `traceback_lines` value after the output scan of `_parse_failure`. -/
def baseTraceLines (lines : List String) : List String :=
  if errLines lines ≠ [] then errLines lines else fallbackLines lines

/-- Commands with a `return-value` attribute different from `"0"` (a missing
attribute also counts, as in the source's `cmd.get('return-value') != '0'`). -/
def failedCommands (run : XElem) : List XElem :=
  (run.findallDesc "command").filter (fun c => ¬ c.attr "return-value" = some "0")

/-- The `cmd_errors` lines built from the first five failed commands. -/
def cmdErrLines (run : XElem) : List String :=
  ((failedCommands run).take 5).foldr
    (fun cmd acc =>
      let cmd_text := strTake (cmd.attrD "command" "Unknown command") 100
      let ret := cmd.attrD "return-value" "?"
      let stderr_text :=
        match cmd.findChild "stderr" with
        | some st =>
            match st.text with
            | some t => if t ≠ "" then strTake (pyStrip t) 200 else ""
            | none => ""
        | none => ""
      ("Command failed (RC=" ++ ret ++ "): " ++ cmd_text) ::
        (if stderr_text ≠ "" then ["  Error: " ++ stderr_text] else []) ++ acc)
    []

/-- `RHCertXMLParser._parse_failure`: build the FAIL failure record. -/
def parseFailure (test_name test_path : String) (run : XElem) : RHFailureRec :=
  let lines := outputLines run
  let base := baseTraceLines lines
  let msg :=
    if base ≠ [] then strTake (base.headD "") 200
    else "Test '" ++ test_name ++ "' failed"
  { test_name := test_name
    class_name := test_path
    error_message := msg
    traceback := joinWith "\n" ((base ++ cmdErrLines run).take 50)
    failure_type := "failure"
    run_time := run.attrD "run-time" "N/A"
    end_time := run.attrD "end-time" "N/A"
    failed_commands_count := some (failedCommands run).length }

/-- One iteration of the run loop in `RHCertXMLParser.parse`. -/
def processRun (test run : XElem) (r : RHResults) : RHResults :=
  let test_name := test.attrD "name" "Unknown"
  let test_path := test.attrD "path" ""
  let r := { r with total_tests := r.total_tests + 1 }
  match run.findChild "summary" with
  | none => r
  | some s =>
      let status := pyUpper (s.attrD "data-value" "UNKNOWN")
      let summary_text := if pyTruthy (s.text.getD "") then pyStrip (s.text.getD "") else ""
      let run_time := run.attrD "run-time" "N/A"
      let end_time := run.attrD "end-time" "N/A"
      if status = "PASS" then { r with passed := r.passed + 1 }
      else if status = "FAIL" then
        { r with failed := r.failed + 1,
                 failures := r.failures ++ [parseFailure test_name test_path run] }
      else if status = "REVIEW" then
        { r with review := r.review + 1,
                 failures := r.failures ++
                   [{ test_name := test_name, class_name := test_path,
                      error_message := "Test requires manual review: " ++ summary_text,
                      traceback := "", failure_type := "review",
                      run_time := run_time, end_time := end_time,
                      failed_commands_count := none }] }
      else if status = "SKIP" then { r with skipped := r.skipped + 1 }
      else { r with errors := r.errors + 1 }

/-- The (test, run) pairs the nested loops of `parse` iterate over, in order. -/
def testRunPairs (root : XElem) : List (XElem × XElem) :=
  (root.findallDesc "test").flatMap (fun t => (t.findallDesc "run").map (fun run => (t, run)))

/-- `RHCertXMLParser.parse` restricted to the counters and failure list. -/
def rhcertParse (root : XElem) : RHResults :=
  (testRunPairs root).foldl (fun r p => processRun p.1 p.2 r) ⟨0, 0, 0, 0, 0, 0, []⟩

/-- Sum of the five status buckets of an RHCert result. -/
def rhBucketSum (r : RHResults) : Nat :=
  r.passed + r.failed + r.skipped + r.errors + r.review

lemma processRun_total (test run : XElem) (r : RHResults) :
    (processRun test run r).total_tests = r.total_tests + 1 := by
  unfold processRun
  rcases run.findChild "summary" with _ | s
  · simp
  · simp only
    split_ifs <;> rfl

lemma processRun_bsum (test run : XElem) (r : RHResults) :
    rhBucketSum (processRun test run r) =
      rhBucketSum r + (if (run.findChild "summary").isSome then 1 else 0) := by
  unfold processRun rhBucketSum
  rcases run.findChild "summary" with _ | s
  · simp
  · simp only [Option.isSome_some, if_true]
    split_ifs <;> simp <;> omega

lemma processRun_flen (test run : XElem) (r : RHResults)
    (h : r.failures.length = r.failed + r.review) :
    (processRun test run r).failures.length =
      (processRun test run r).failed + (processRun test run r).review := by
  unfold processRun
  rcases run.findChild "summary" with _ | s
  · simpa using h
  · simp only
    split_ifs <;> simp <;> omega

lemma tempestBody_inv (root : XElem) :
    bucketSum (tempestBody root) ≤ (tempestBody root).total_tests := by
  unfold tempestBody
  simp only
  split_ifs
  · exact foldl_testsuite_inv _ _ (by simp [bucketSum])
  · exact parseTestsuite_inv _ _ (by simp [bucketSum])
  · simp [bucketSum]

lemma clamp_eq_max (d : Int) :
    (((if d < 0 then 0 else d.toNat) : Nat) : Int) = max 0 d := by
  split_ifs with h
  · simp [max_eq_left h.le]
  · push_neg at h
    simp [Int.toNat_of_nonneg h, max_eq_right h]

lemma foldl_processRun_total (l : List (XElem × XElem)) (r : RHResults) :
    (l.foldl (fun r p => processRun p.1 p.2 r) r).total_tests =
      r.total_tests + l.length := by
  induction l generalizing r with
  | nil => simp
  | cons p rest ih =>
      simp only [List.foldl_cons, List.length_cons]
      rw [ih, processRun_total]
      omega

lemma foldl_processRun_bsum (l : List (XElem × XElem)) (r : RHResults) :
    rhBucketSum (l.foldl (fun r p => processRun p.1 p.2 r) r) =
      rhBucketSum r + l.countP (fun p => (p.2.findChild "summary").isSome) := by
  induction l generalizing r with
  | nil => simp
  | cons p rest ih =>
      simp only [List.foldl_cons, List.countP_cons]
      rw [ih, processRun_bsum]
      split_ifs <;> omega

lemma foldl_processRun_flen (l : List (XElem × XElem)) (r : RHResults)
    (h : r.failures.length = r.failed + r.review) :
    (l.foldl (fun r p => processRun p.1 p.2 r) r).failures.length =
      (l.foldl (fun r p => processRun p.1 p.2 r) r).failed +
        (l.foldl (fun r p => processRun p.1 p.2 r) r).review := by
  induction l generalizing r with
  | nil => simpa using h
  | cons p rest ih =>
      simp only [List.foldl_cons]
      exact ih _ (processRun_flen p.1 p.2 r h)

/-- Number of runs iterated by `RHCertXMLParser.parse` that have no direct
`summary` child. -/
def noSummaryCount (root : XElem) : Nat :=
  (testRunPairs root).countP (fun p => (p.2.findChild "summary").isNone)

/-! ## Concrete certification XML examples -/

/-- A certification report with one run whose summary status is REVIEW. -/
def exReviewRoot : XElem :=
  XElem.mk "certification-test" [] none
    [XElem.mk "test" [("name", "t1"), ("path", "/t1")] none
      [XElem.mk "run" [] none
        [XElem.mk "summary" [("data-value", "REVIEW")] (some "needs review") []]]]

/-- C1, counterexample.  The certification parser on a report with a single
REVIEW run yields `total_tests = 1` and `passed = failed = skipped = errors
= 0`, so `passed` is not `max 0 (total - failed - skipped - errors) = 1`:
the claimed equation fails for the CertificationXMLParser. -/
theorem C1_counterexample_review :
    (rhcertParse exReviewRoot).total_tests = 1 ∧
    (rhcertParse exReviewRoot).failed = 0 ∧
    (rhcertParse exReviewRoot).skipped = 0 ∧
    (rhcertParse exReviewRoot).errors = 0 ∧
    (rhcertParse exReviewRoot).passed = 0 ∧
    ¬ (((rhcertParse exReviewRoot).passed : Int) =
        max 0 (((rhcertParse exReviewRoot).total_tests : Int) -
          (rhcertParse exReviewRoot).failed - (rhcertParse exReviewRoot).skipped -
          (rhcertParse exReviewRoot).errors)) := by
  decide

/-- C1 (amended): for every report produced by the JUnit XML parser
(TempestXMLParser), `total >= failed + skipped + errors` and
`passed = max 0 (total - failed - skipped - errors)`.  (The certification
parser counts `passed` directly and counts REVIEW runs and summary-less runs
outside the three buckets, and the HTML and component-report parsers read
`passed` straight from the document, so the `passed` equation is theirs to
violate — see the counterexample.) -/
theorem C1_junit_count_invariant (root : XElem) :
    (tempestParse root).failed + (tempestParse root).skipped +
      (tempestParse root).errors ≤ (tempestParse root).total_tests ∧
    ((tempestParse root).passed : Int) =
      max 0 (((tempestParse root).total_tests : Int) - (tempestParse root).failed -
        (tempestParse root).skipped - (tempestParse root).errors) := by
  have hfail : (tempestParse root).failed = (tempestBody root).failed := rfl
  have hskip : (tempestParse root).skipped = (tempestBody root).skipped := rfl
  have herr : (tempestParse root).errors = (tempestBody root).errors := rfl
  have htot : (tempestParse root).total_tests = (tempestBody root).total_tests := rfl
  have hinv := tempestBody_inv root
  unfold bucketSum at hinv
  constructor
  · rw [hfail, hskip, herr, htot]
    omega
  · rw [hfail, hskip, herr, htot]
    have hp : (tempestParse root).passed =
        (if ((tempestBody root).total_tests : Int) - (tempestBody root).failed -
            (tempestBody root).skipped - (tempestBody root).errors < 0 then 0
         else (((tempestBody root).total_tests : Int) - (tempestBody root).failed -
            (tempestBody root).skipped - (tempestBody root).errors).toNat) := rfl
    rw [hp]
    exact clamp_eq_max _

/-- C1 witness: the amended invariant, instantiated at the empty testsuite. -/
theorem C1_junit_count_invariant_witness :
    (tempestParse (XElem.mk "testsuite" [] none [])).failed +
      (tempestParse (XElem.mk "testsuite" [] none [])).skipped +
      (tempestParse (XElem.mk "testsuite" [] none [])).errors ≤
      (tempestParse (XElem.mk "testsuite" [] none [])).total_tests ∧
    ((tempestParse (XElem.mk "testsuite" [] none [])).passed : Int) =
      max 0 (((tempestParse (XElem.mk "testsuite" [] none [])).total_tests : Int) -
        (tempestParse (XElem.mk "testsuite" [] none [])).failed -
        (tempestParse (XElem.mk "testsuite" [] none [])).skipped -
        (tempestParse (XElem.mk "testsuite" [] none [])).errors) :=
  C1_junit_count_invariant (XElem.mk "testsuite" [] none [])

/-- C9: a `<run>` without a `<summary>` child increments `total_tests` only:
`total` always equals the five-bucket sum plus the number of summary-less
runs, equality with the bucket sum holds exactly when every run has a
summary child, and the failures list has one record per FAIL or REVIEW run
(so summary-less runs contribute none). -/
theorem C9_runs_without_summary (root : XElem) :
    (rhcertParse root).total_tests =
      (rhcertParse root).passed + (rhcertParse root).failed +
        (rhcertParse root).skipped + (rhcertParse root).errors +
        (rhcertParse root).review + noSummaryCount root ∧
    ((rhcertParse root).total_tests =
      (rhcertParse root).passed + (rhcertParse root).failed +
        (rhcertParse root).skipped + (rhcertParse root).errors +
        (rhcertParse root).review ↔
      ∀ p ∈ testRunPairs root, (p.2.findChild "summary").isSome) ∧
    (rhcertParse root).failures.length =
      (rhcertParse root).failed + (rhcertParse root).review := by
  have htot : (rhcertParse root).total_tests = (testRunPairs root).length := by
    unfold rhcertParse
    rw [foldl_processRun_total]
    simp
  have hbs : (rhcertParse root).passed + (rhcertParse root).failed +
      (rhcertParse root).skipped + (rhcertParse root).errors +
      (rhcertParse root).review =
      (testRunPairs root).countP (fun p => (p.2.findChild "summary").isSome) := by
    have h := foldl_processRun_bsum (testRunPairs root) ⟨0, 0, 0, 0, 0, 0, []⟩
    unfold rhBucketSum at h
    simp only [Nat.zero_add] at h
    exact h
  have hflen : (rhcertParse root).failures.length =
      (rhcertParse root).failed + (rhcertParse root).review :=
    foldl_processRun_flen (testRunPairs root) ⟨0, 0, 0, 0, 0, 0, []⟩ (by simp)
  have hsplit : (testRunPairs root).length =
      (testRunPairs root).countP (fun p => (p.2.findChild "summary").isSome) +
        noSummaryCount root := by
    unfold noSummaryCount
    induction testRunPairs root with
    | nil => simp
    | cons p rest ih =>
        simp only [List.length_cons, List.countP_cons]
        rcases hp : p.2.findChild "summary" with _ | s
        · simp
          omega
        · simp
          omega
  have hmain : (rhcertParse root).total_tests =
      (rhcertParse root).passed + (rhcertParse root).failed +
        (rhcertParse root).skipped + (rhcertParse root).errors +
        (rhcertParse root).review + noSummaryCount root := by
    omega
  refine ⟨hmain, ⟨?_, ?_⟩, ?_⟩
  · intro heq
    have hzero : noSummaryCount root = 0 := by omega
    unfold noSummaryCount at hzero
    rw [List.countP_eq_zero] at hzero
    intro p hp
    have := hzero p hp
    rcases ho : p.2.findChild "summary" with _ | s
    · rw [ho] at this
      simp at this
    · simp
  · intro hall
    have hzero : noSummaryCount root = 0 := by
      unfold noSummaryCount
      rw [List.countP_eq_zero]
      intro p hp
      have := hall p hp
      rcases ho : p.2.findChild "summary" with _ | s
      · rw [ho] at this
        simp at this
      · simp
    omega
  · exact hflen

/-- C9 witness: instantiation at the single-REVIEW-run report, where every
run has a summary child and the counts balance. -/
theorem C9_runs_without_summary_witness :
    (rhcertParse exReviewRoot).total_tests =
      (rhcertParse exReviewRoot).passed + (rhcertParse exReviewRoot).failed +
        (rhcertParse exReviewRoot).skipped + (rhcertParse exReviewRoot).errors +
        (rhcertParse exReviewRoot).review ∧
    (rhcertParse exReviewRoot).failures.length =
      (rhcertParse exReviewRoot).failed + (rhcertParse exReviewRoot).review :=
  ⟨((C9_runs_without_summary exReviewRoot).2.1).2 (by decide),
   (C9_runs_without_summary exReviewRoot).2.2⟩

/-- C3: a run whose summary `data-value` upper-cases to REVIEW increments the
dedicated `review` counter (leaving `failed` and `skipped` untouched, as the
record update shows) and appends a failure record with
`failure_type = "review"`. -/
theorem C3_review_status (test run : XElem) (r : RHResults) (s : XElem)
    (hs : run.findChild "summary" = some s)
    (hv : pyUpper (s.attrD "data-value" "UNKNOWN") = "REVIEW") :
    processRun test run r =
      { r with
        total_tests := r.total_tests + 1,
        review := r.review + 1,
        failures := r.failures ++
          [{ test_name := test.attrD "name" "Unknown",
             class_name := test.attrD "path" "",
             error_message := "Test requires manual review: " ++
               (if pyTruthy (s.text.getD "") then pyStrip (s.text.getD "") else ""),
             traceback := "", failure_type := "review",
             run_time := run.attrD "run-time" "N/A",
             end_time := run.attrD "end-time" "N/A",
             failed_commands_count := none }] } := by
  unfold processRun
  rw [hs]
  simp [hv]

/-- C3 witness: a lower-case `review` summary value is counted as REVIEW and
listed with kind `review`. -/
theorem C3_review_status_witness :
    processRun (XElem.mk "test" [("name", "t1"), ("path", "/t1")] none [])
      (XElem.mk "run" [] none
        [XElem.mk "summary" [("data-value", "review")] (some "check me") []])
      ⟨0, 0, 0, 0, 0, 0, []⟩ =
      { total_tests := 1, passed := 0, failed := 0, skipped := 0, errors := 0,
        review := 1,
        failures := [⟨"t1", "/t1", "Test requires manual review: check me",
                      "", "review", "N/A", "N/A", none⟩] } := by
  rw [C3_review_status (XElem.mk "test" [("name", "t1"), ("path", "/t1")] none [])
    (XElem.mk "run" [] none
      [XElem.mk "summary" [("data-value", "review")] (some "check me") []])
    ⟨0, 0, 0, 0, 0, 0, []⟩
    (XElem.mk "summary" [("data-value", "review")] (some "check me") [])
    (by rfl) (by decide)]
  decide

/-! ## Concrete FAIL-run examples for the error-message derivation -/

/-- Run whose output has one token-matching line, "Error: disk full". -/
def exDiskRun : XElem :=
  XElem.mk "run" [] none
    [XElem.mk "summary" [("data-value", "FAIL")] (some "failed") [],
     XElem.mk "output" [] (some "Setting up\nError: disk full\nEnd") []]

/-- Certification report with a single FAIL run, output containing a line
"Error: disk full". -/
def exDiskRoot : XElem :=
  XElem.mk "certification-test" [] none
    [XElem.mk "test" [("name", "storage"), ("path", "/storage")] none [exDiskRun]]

/-- Run with no token-matching output line, where "non-blank among the last
10 lines" and "last 10 among the non-blank lines" differ: 11 lines, the
second blank. -/
def exC4Run : XElem :=
  XElem.mk "run" [] none
    [XElem.mk "output" []
      (some "alpha\n\nline1\nline2\nline3\nline4\nline5\nline6\nline7\nline8\nline9")
      []]

/-- Modelled from the claim's words (C4): with no token-matching line, the
error message is "the first of the last 10 non-blank output lines" truncated
to 200 characters. -/
def specC4FallbackMessage (lines : List String) : String :=
  strTake ((lastN 10 (lines.filter (fun l => pyTruthy (pyStrip l)))).headD "") 200

/-- C4, counterexample.  On an output whose lines are
`alpha, (blank), line1..line9` no line matches an error token; the code
takes the first non-blank line among the last 10 raw lines ("line1"), while
the claim's "first of the last 10 non-blank output lines" is "alpha". -/
theorem C4_counterexample_fallback :
    errLines (outputLines exC4Run) = [] ∧
    (parseFailure "t" "p" exC4Run).error_message = "line1" ∧
    specC4FallbackMessage (outputLines exC4Run) = "alpha" ∧
    ¬ (parseFailure "t" "p" exC4Run).error_message =
        specC4FallbackMessage (outputLines exC4Run) := by
  decide

/-- C4 (amended): for a FAIL run, the failure record's `error_message` is the
first output line containing one of error/fail/exception/traceback
(case-insensitive) truncated to 200 characters; if no line matches, it is the
first non-blank line among the last 10 output lines, truncated likewise; the
record's kind is `failure`; the traceback is the scan result plus the
"command failed" lines of the first five failed commands, capped at 50 lines;
end to end, the single-FAIL-run report with an output line "Error: disk full"
yields exactly one record with that error message and kind `failure`. -/
theorem C4_fail_error_message (test_name test_path : String) (run : XElem) :
    (errLines (outputLines run) ≠ [] →
      (parseFailure test_name test_path run).error_message =
        strTake ((errLines (outputLines run)).headD "") 200) ∧
    (errLines (outputLines run) = [] → fallbackLines (outputLines run) ≠ [] →
      (parseFailure test_name test_path run).error_message =
        strTake ((fallbackLines (outputLines run)).headD "") 200) ∧
    (parseFailure test_name test_path run).failure_type = "failure" ∧
    (parseFailure test_name test_path run).traceback =
      joinWith "\n" ((baseTraceLines (outputLines run) ++ cmdErrLines run).take 50) ∧
    (rhcertParse exDiskRoot).failures.map (fun f => (f.error_message, f.failure_type)) =
      [("Error: disk full", "failure")] := by
  refine ⟨?_, ?_, rfl, rfl, by decide⟩
  · intro h
    unfold parseFailure baseTraceLines
    simp [h]
  · intro h1 h2
    unfold parseFailure baseTraceLines
    simp [h1, h2]

/-- C4 witness: the token-matching branch at the disk-full run. -/
theorem C4_fail_error_message_witness :
    errLines (outputLines exDiskRun) ≠ [] ∧
    (parseFailure "storage" "/storage" exDiskRun).error_message =
      strTake ((errLines (outputLines exDiskRun)).headD "") 200 :=
  ⟨by decide, (C4_fail_error_message "storage" "/storage" exDiskRun).1 (by decide)⟩

/-- C5: `_parse_testcase` inspects the children in the order `failure`,
`error`, `skipped`; the first present child determines the record's kind and
supplies message and traceback from its attributes and text; with none of the
three the results are unchanged (the testcase counts only toward
`total_tests`, i.e. as passed, and adds no failure record). -/
theorem C5_testcase_child_order (tc : XElem) (r : TempestResults) :
    match tc.findChild "failure", tc.findChild "error", tc.findChild "skipped" with
    | some f, _, _ =>
        parseTestcase tc r =
          { r with
            failed := r.failed + 1,
            failures := r.failures ++
              [⟨tc.attrD "name" "Unknown", tc.attrD "classname" "Unknown",
                f.attrD "message" "", f.text.getD "", "failure"⟩] }
    | none, some e, _ =>
        parseTestcase tc r =
          { r with
            errors := r.errors + 1,
            failures := r.failures ++
              [⟨tc.attrD "name" "Unknown", tc.attrD "classname" "Unknown",
                e.attrD "message" "", e.text.getD "", "error"⟩] }
    | none, none, some sk =>
        parseTestcase tc r =
          { r with
            skipped := r.skipped + 1,
            failures := r.failures ++
              [⟨tc.attrD "name" "Unknown", tc.attrD "classname" "Unknown",
                skipMessageOf sk, "", "skip"⟩] }
    | none, none, none => parseTestcase tc r = r := by
  rcases hf : tc.findChild "failure" with _ | f
  · rcases he : tc.findChild "error" with _ | e
    · rcases hs : tc.findChild "skipped" with _ | sk
      · simp [parseTestcase, hf, he, hs]
      · simp [parseTestcase, hf, he, hs]
    · simp [parseTestcase, hf, he]
  · simp [parseTestcase, hf]

/-! ## TempestHTMLParser (analysis_service/parsers/tempest_html.py)

HTML tree model (BeautifulSoup fragment): an element node carries a tag, the
class-attribute tokens and children; a text node carries a string.
`find(...)` searches descendants recursively in document order. -/

inductive HNode where
  | elem (tag : String) (classes : List String) (children : List HNode)
  | text (s : String)
deriving Repr

def HNode.children : HNode → List HNode
  | .elem _ _ cs => cs
  | .text _ => []

/-- `element.get('class', [])` (empty for text nodes). -/
def HNode.classes : HNode → List String
  | .elem _ cls _ => cls
  | .text _ => []

mutual
/-- Elements of a subtree (including its root) satisfying a tag/class
predicate, in document order. -/
def hSelfAndDesc (p : String → List String → Bool) : HNode → List HNode
  | .elem t cls cs =>
      (if p t cls then [HNode.elem t cls cs] else []) ++ hDescList p cs
  | .text _ => []

/-- Matching elements of a forest of subtrees, in document order. -/
def hDescList (p : String → List String → Bool) : List HNode → List HNode
  | [] => []
  | c :: cs => hSelfAndDesc p c ++ hDescList p cs
end

/-- `element.find(...)`: first matching descendant (the element itself is not
considered). -/
def HNode.findDesc (n : HNode) (p : String → List String → Bool) : Option HNode :=
  (hDescList p n.children).head?

/-- `element.find(class_=c)`. -/
def findByClass (n : HNode) (c : String) : Option HNode :=
  n.findDesc (fun _ cls => cls.contains c)

/-- `element.find('td', class_=c)`. -/
def findTdByClass (n : HNode) (c : String) : Option HNode :=
  n.findDesc (fun t cls => t == "td" && cls.contains c)

/-- `element.find(tag)`. -/
def findByTag (n : HNode) (tag : String) : Option HNode :=
  n.findDesc (fun t _ => t == tag)

mutual
/-- The text strings of a subtree, in document order. -/
def hTexts : HNode → List String
  | .elem _ _ cs => hTextsList cs
  | .text s => [s]

def hTextsList : List HNode → List String
  | [] => []
  | c :: cs => hTexts c ++ hTextsList cs
end

/-- `element.get_text(strip=True)`: strip each string and concatenate. -/
def getTextStrip (n : HNode) : String :=
  joinWith "" ((hTexts n).map pyStrip)

structure HTMLFailureRec where
  test_name : String
  class_name : String
  error_message : String
  traceback : String
  failure_type : String
deriving Repr, DecidableEq

/-- The `name_elem` lookup of `_parse_failure_row`:
`element.find(class_='test-name') or element.find('td', class_='name')`. -/
def rowNameElem (element : HNode) : Option HNode :=
  match findByClass element "test-name" with
  | some x => some x
  | none => findTdByClass element "name"

/-- The `test_name` field: text of the name cell, defaulting to Unknown. -/
def rowTestName (element : HNode) : String :=
  match rowNameElem element with
  | some x => getTextStrip x
  | none => "Unknown"

/-- The `class_name` field of `_parse_failure_row`. -/
def rowClassName (element : HNode) : String :=
  match (match findByClass element "test-class" with
         | some x => some x
         | none => findTdByClass element "class") with
  | some x => getTextStrip x
  | none => "Unknown"

/-- The `error_message` field of `_parse_failure_row`. -/
def rowErrorMessage (element : HNode) : String :=
  match (match findByClass element "error-message" with
         | some x => some x
         | none => findTdByClass element "message") with
  | some x => getTextStrip x
  | none => ""

/-- The `traceback` field of `_parse_failure_row`. -/
def rowTraceback (element : HNode) : String :=
  match (match findByClass element "traceback" with
         | some x => some x
         | none => findByTag element "pre") with
  | some x => getTextStrip x
  | none => ""

/-- The `failure_type` field, read off the row's own class attribute. -/
def rowFailureType (element : HNode) : String :=
  if element.classes.contains "error" then "error"
  else if element.classes.contains "skip" then "skip"
  else "failure"

/-- `TempestHTMLParser._parse_failure_row`: build the record field by field,
then return it only when a test name was found (`test_name != 'Unknown'`). -/
def parseFailureRow (element : HNode) : Option HTMLFailureRec :=
  if rowTestName element ≠ "Unknown" then
    some ⟨rowTestName element, rowClassName element, rowErrorMessage element,
          rowTraceback element, rowFailureType element⟩
  else none

/-- The row loop of `_parse_test_results`: append each non-dropped record. -/
def parseRows (rows : List HNode) : List HTMLFailureRec :=
  rows.foldl
    (fun acc row =>
      match parseFailureRow row with
      | some f => acc ++ [f]
      | none => acc)
    []

lemma parseRows_foldl (rows : List HNode) (acc : List HTMLFailureRec) :
    rows.foldl
      (fun acc row =>
        match parseFailureRow row with
        | some f => acc ++ [f]
        | none => acc)
      acc = acc ++ rows.filterMap parseFailureRow := by
  induction rows generalizing acc with
  | nil => simp
  | cons row rest ih =>
      simp only [List.foldl_cons, List.filterMap_cons]
      rcases h : parseFailureRow row with _ | f
      · rw [ih]
      · rw [ih]
        simp

lemma parseRows_eq (rows : List HNode) :
    parseRows rows = rows.filterMap parseFailureRow := by
  unfold parseRows
  simpa using parseRows_foldl rows []

lemma parseFailureRow_name (element : HNode) (fr : HTMLFailureRec)
    (h : parseFailureRow element = some fr) : ¬ fr.test_name = "Unknown" := by
  unfold parseFailureRow at h
  split_ifs at h with hcond
  cases h
  simpa using hcond

/-- C10: a structured failure row/div with no test-name cell (neither a
`test-name`-classed element nor a `td` of class `name`) is discarded — it
contributes no record — and every record the structured row path produces has
a test name different from "Unknown". -/
theorem C10_structured_row_names (element : HNode) :
    (findByClass element "test-name" = none → findTdByClass element "name" = none →
      parseFailureRow element = none) ∧
    (∀ fr, parseFailureRow element = some fr → ¬ fr.test_name = "Unknown") ∧
    (∀ rows : List HNode, ∀ fr ∈ parseRows rows, ¬ fr.test_name = "Unknown") := by
  refine ⟨?_, ?_, ?_⟩
  · intro h1 h2
    unfold parseFailureRow rowTestName rowNameElem
    rw [h1, h2]
    simp
  · intro fr h
    exact parseFailureRow_name element fr h
  · intro rows fr hmem
    rw [parseRows_eq] at hmem
    rcases List.mem_filterMap.mp hmem with ⟨row, _, heq⟩
    exact parseFailureRow_name row fr heq

/-- C10 witness: a `failed` row containing only loose text yields no record. -/
theorem C10_structured_row_names_witness :
    parseFailureRow (HNode.elem "tr" ["failed"] [HNode.text "boom"]) = none :=
  (C10_structured_row_names (HNode.elem "tr" ["failed"] [HNode.text "boom"])).1
    (by rfl) (by rfl)

/-! ## MustGatherParser (analysis_service/parsers/mustgather.py)

Keyword extraction and log-file relevance scoring.  Python's `set` is
modelled as an insertion-ordered duplicate-free list; claims about the
result treat it as a set, since `list(set)` order is unspecified. -/

/-- Add an element to a duplicate-free list if absent (`set.add`). -/
def setAdd (l : List String) (s : String) : List String :=
  if l.contains s then l else l ++ [s]

/-- Add many elements (`set.update`). -/
def setAddAll (l : List String) (ss : List String) : List String :=
  ss.foldl setAdd l

def isLowerAlpha (c : Char) : Bool := 'a' ≤ c && c ≤ 'z'

/-- Maximal runs of lower-case letters — `re.findall(r'[a-z]+', s)`. -/
def lowerRuns : List Char → List (List Char)
  | [] => []
  | c :: rest =>
      let rs := lowerRuns rest
      if isLowerAlpha c then
        match rest with
        | r :: _ =>
            if isLowerAlpha r then
              match rs with
              | g :: gs => (c :: g) :: gs
              | [] => [[c]]
            else [c] :: rs
        | [] => [[c]]
      else rs

def reFindLowerRuns (s : String) : List String :=
  (lowerRuns s.data).map String.mk

def isHexLower (c : Char) : Bool :=
  ('0' ≤ c && c ≤ '9') || ('a' ≤ c && c ≤ 'f')

/-- Match exactly `n` lower-case hex digits, returning them and the rest. -/
def matchHexN : Nat → List Char → Option (List Char × List Char)
  | 0, cs => some ([], cs)
  | _ + 1, [] => none
  | n + 1, c :: cs =>
      if isHexLower c then (matchHexN n cs).map (fun p => (c :: p.1, p.2)) else none

/-- Match the 8-4-4-4-12 UUID pattern at the head of the list. -/
def matchUuid (cs : List Char) : Option (List Char × List Char) :=
  (matchHexN 8 cs).bind (fun p8 =>
    match p8.2 with
    | '-' :: r1 =>
      (matchHexN 4 r1).bind (fun p4a =>
        match p4a.2 with
        | '-' :: r2 =>
          (matchHexN 4 r2).bind (fun p4b =>
            match p4b.2 with
            | '-' :: r3 =>
              (matchHexN 4 r3).bind (fun p4c =>
                match p4c.2 with
                | '-' :: r4 =>
                  (matchHexN 12 r4).map (fun p12 =>
                    (p8.1 ++ '-' :: p4a.1 ++ '-' :: p4b.1 ++ '-' :: p4c.1 ++
                      '-' :: p12.1, p12.2))
                | _ => none)
            | _ => none)
        | _ => none)
    | _ => none)

/-- Left-to-right non-overlapping UUID matches (`re.findall`), fuelled by the
input length so the recursion is structural. -/
def findUuidsAux : Nat → List Char → List String
  | 0, _ => []
  | _ + 1, [] => []
  | fuel + 1, c :: rest =>
      match matchUuid (c :: rest) with
      | some (m, rest2) => String.mk m :: findUuidsAux fuel rest2
      | none => findUuidsAux fuel rest

def findUuids (cs : List Char) : List String := findUuidsAux cs.length cs

def serviceNames : List String :=
  ["nova", "cinder", "neutron", "glance", "keystone", "heat", "swift"]

def resourceNames : List String :=
  ["volume", "instance", "network", "port", "router", "image", "server", "snapshot"]

def errorTypeNames : List String :=
  ["timeout", "error", "failure", "exception", "denied", "not found", "conflict"]

/-- Python `s.replace(' ', '_')`. -/
def pyReplaceSpace (s : String) : String :=
  String.mk (s.data.map (fun c => if c = ' ' then '_' else c))

/-- `MustGatherParser._extract_keywords`. -/
def extractKeywords (test_name error_message : String) : List String :=
  let tl := pyLower test_name
  let el := pyLower error_message
  let k1 := setAddAll []
    ((reFindLowerRuns tl).filter (fun p => p.length > 3))
  let k2 := serviceNames.foldl
    (fun acc s => if strContains el s then setAdd acc s else acc) k1
  let k3 := resourceNames.foldl
    (fun acc s => if strContains el s || strContains tl s then setAdd acc s else acc) k2
  let k4 := errorTypeNames.foldl
    (fun acc s => if strContains el s then setAdd acc (pyReplaceSpace s) else acc) k3
  setAddAll k4 ((findUuids el.data).take 3)

/-- C8: keyword extraction on the test name `test_volume_create_delete` with
an empty error message returns exactly the set of lower-case alphabetic runs
longer than 3 characters: test, volume, create, delete. -/
theorem C8_keywords_example :
    ∀ s : String,
      s ∈ extractKeywords "test_volume_create_delete" "" ↔
      s ∈ (["test", "volume", "create", "delete"] : List String) := by
  have h : extractKeywords "test_volume_create_delete" "" =
      ["test", "volume", "create", "delete"] := by decide
  intro s
  rw [h]

/-! ## Log-file relevance scoring (`find_related_logs`)

The filesystem walk is modelled by an explicit list of files in walk order;
each file carries its relative path, basename, size in bytes and content
lines.  I/O exceptions (an unreadable file leaves its content score at 0)
are outside the model. -/

structure LogFile where
  path : String
  name : String
  size : Nat
  lines : List String
deriving Repr, DecidableEq

structure LogCandidate where
  path : String
  score : Nat
  filename_score : Nat
  content_score : Nat
deriving Repr, DecidableEq

def logExtensions : List String := [".log", ".txt", ".out", ".err"]

def acceptedExt (name : String) : Bool :=
  logExtensions.any (fun ext => strEndsWith name ext)

/-- `MustGatherParser._calculate_relevance_score`: per matching keyword, 5
when it equals the part of the filename before the first dot, else 2. -/
def calcRelevanceScore (filename : String) (keywords : List String) : Nat :=
  keywords.foldl
    (fun score kw =>
      if strContains filename kw then
        if kw = (pySplitChar '.' filename).headD "" then score + 5 else score + 2
      else score)
    0

/-- `MustGatherParser._scan_log_content`: scan at most `max_lines` lines; per
keyword contained in a line, +3 when the line also mentions
error/warn/fail, else +1. -/
def scanLogContent (lines : List String) (keywords : List String)
    (max_lines : Nat) : Nat :=
  (lines.take max_lines).foldl
    (fun score line =>
      let ll := pyLower line
      keywords.foldl
        (fun sc kw =>
          if strContains ll kw then
            if strContains ll "error" || strContains ll "warn" ||
                strContains ll "fail" then sc + 3
            else sc + 1
          else sc)
        score)
    0

/-- The candidate built for a file that passed the filename-score gate. -/
def mkCandidate (keywords : List String) (f : LogFile) : LogCandidate :=
  let fnScore := calcRelevanceScore (pyLower f.name) keywords
  let contentScore :=
    if f.size < 10 * 1024 * 1024 then scanLogContent f.lines keywords 500 else 0
  ⟨f.path, fnScore + contentScore, fnScore, contentScore⟩

/-- One iteration of the walk loop in `find_related_logs`. -/
def candidateStep (keywords : List String) (acc : List LogCandidate)
    (f : LogFile) : List LogCandidate :=
  if ¬ acceptedExt f.name then acc
  else
    let fnScore := calcRelevanceScore (pyLower f.name) keywords
    if fnScore > 0 then
      let contentScore :=
        if f.size < 10 * 1024 * 1024 then scanLogContent f.lines keywords 500 else 0
      if fnScore + contentScore > 0 then
        acc ++ [⟨f.path, fnScore + contentScore, fnScore, contentScore⟩]
      else acc
    else acc

/-- The `related_logs` list accumulated over the walk. -/
def candidateList (files : List LogFile) (keywords : List String) :
    List LogCandidate :=
  files.foldl (candidateStep keywords) []

/-- Stable descending insertion by total score: the new element (earlier in
walk order) goes before every element of equal or smaller score. -/
def insertDesc (x : LogCandidate) : List LogCandidate → List LogCandidate
  | [] => [x]
  | y :: ys => if y.score ≤ x.score then x :: y :: ys else y :: insertDesc x ys

/-- Stable sort by score descending, as Python's stable
`list.sort(key=score, reverse=True)`. -/
def stableSortDesc : List LogCandidate → List LogCandidate
  | [] => []
  | x :: xs => insertDesc x (stableSortDesc xs)

/-- `MustGatherParser.find_related_logs` over the modelled walk: empty
keywords short-circuit; otherwise score, sort, truncate, project paths. -/
def findRelatedLogs (files : List LogFile) (keywords : List String)
    (maxResults : Nat) : List String :=
  if keywords = [] then []
  else
    ((stableSortDesc (candidateList files keywords)).take maxResults).map
      (fun c => c.path)

lemma candidateStep_pos (keywords : List String) (acc : List LogCandidate)
    (f : LogFile) (h1 : acceptedExt f.name = true)
    (h2 : 0 < calcRelevanceScore (pyLower f.name) keywords) :
    candidateStep keywords acc f = acc ++ [mkCandidate keywords f] := by
  unfold candidateStep mkCandidate
  have h3 : 0 < calcRelevanceScore (pyLower f.name) keywords +
      (if f.size < 10 * 1024 * 1024 then scanLogContent f.lines keywords 500
       else 0) := Nat.add_pos_left h2 _
  simp [h1, h2, h3]

lemma candidateStep_drop (keywords : List String) (acc : List LogCandidate)
    (f : LogFile)
    (h : ¬ (acceptedExt f.name = true ∧
        0 < calcRelevanceScore (pyLower f.name) keywords)) :
    candidateStep keywords acc f = acc := by
  unfold candidateStep
  by_cases h1 : acceptedExt f.name = true
  · have h2 : ¬ 0 < calcRelevanceScore (pyLower f.name) keywords := by
      intro hpos
      exact h ⟨h1, hpos⟩
    simp [h1, h2]
  · simp [h1]

lemma candidateList_foldl (files : List LogFile) (keywords : List String)
    (acc : List LogCandidate) :
    files.foldl (candidateStep keywords) acc =
      acc ++ (files.filter (fun f => acceptedExt f.name &&
        decide (0 < calcRelevanceScore (pyLower f.name) keywords))).map
        (mkCandidate keywords) := by
  induction files generalizing acc with
  | nil => simp
  | cons f rest ih =>
      simp only [List.foldl_cons, List.filter_cons]
      by_cases h1 : acceptedExt f.name = true
      · by_cases h2 : 0 < calcRelevanceScore (pyLower f.name) keywords
        · rw [candidateStep_pos keywords acc f h1 h2, ih]
          simp [h1, h2]
        · rw [candidateStep_drop keywords acc f (by tauto), ih]
          simp [h1, h2]
      · rw [candidateStep_drop keywords acc f (by tauto), ih]
        simp [h1]

lemma candidateList_eq (files : List LogFile) (keywords : List String) :
    candidateList files keywords =
      (files.filter (fun f => acceptedExt f.name &&
        decide (0 < calcRelevanceScore (pyLower f.name) keywords))).map
        (mkCandidate keywords) := by
  unfold candidateList
  simpa using candidateList_foldl files keywords []

lemma mem_insertDesc (z x : LogCandidate) (l : List LogCandidate) :
    z ∈ insertDesc x l ↔ z = x ∨ z ∈ l := by
  induction l with
  | nil => simp [insertDesc]
  | cons y ys ih =>
      unfold insertDesc
      split_ifs with hc
      · simp
      · simp only [List.mem_cons, ih]
        tauto

lemma insertDesc_pairwise (x : LogCandidate) (l : List LogCandidate)
    (h : List.Pairwise (fun a b => b.score ≤ a.score) l) :
    List.Pairwise (fun a b => b.score ≤ a.score) (insertDesc x l) := by
  induction l with
  | nil => simp [insertDesc]
  | cons y ys ih =>
      rw [List.pairwise_cons] at h
      obtain ⟨hy, hys⟩ := h
      unfold insertDesc
      split_ifs with hc
      · rw [List.pairwise_cons]
        refine ⟨?_, ?_⟩
        · intro z hz
          rcases List.mem_cons.mp hz with rfl | hz2
          · exact hc
          · exact le_trans (hy z hz2) hc
        · rw [List.pairwise_cons]
          exact ⟨hy, hys⟩
      · rw [List.pairwise_cons]
        push_neg at hc
        refine ⟨?_, ih hys⟩
        intro z hz
        rcases (mem_insertDesc z x ys).mp hz with rfl | hz2
        · exact le_of_lt hc
        · exact hy z hz2

lemma stableSortDesc_pairwise (l : List LogCandidate) :
    List.Pairwise (fun a b => b.score ≤ a.score) (stableSortDesc l) := by
  induction l with
  | nil => simp [stableSortDesc]
  | cons x xs ih => exact insertDesc_pairwise x _ ih

lemma filter_insertDesc (x : LogCandidate) (l : List LogCandidate) (s : Nat) :
    (insertDesc x l).filter (fun c => c.score == s) =
      if x.score == s then x :: l.filter (fun c => c.score == s)
      else l.filter (fun c => c.score == s) := by
  induction l with
  | nil =>
      unfold insertDesc
      by_cases hx : x.score == s
      · simp [List.filter_cons, hx]
      · simp [List.filter_cons, hx]
  | cons y ys ih =>
      unfold insertDesc
      by_cases hxy : y.score ≤ x.score
      · rw [if_pos hxy]
        by_cases hx : x.score == s
        · simp [List.filter_cons, hx]
        · simp [List.filter_cons, hx]
      · rw [if_neg hxy]
        push_neg at hxy
        by_cases hy : y.score == s
        · have hxs : ¬ x.score == s := by
            have hys : y.score = s := by simpa using hy
            simp only [beq_iff_eq]
            omega
          simp [List.filter_cons, hy, ih, hxs]
        · by_cases hx : x.score == s
          · simp [List.filter_cons, hy, ih, hx]
          · simp [List.filter_cons, hy, ih, hx]

lemma filter_stableSortDesc (l : List LogCandidate) (s : Nat) :
    (stableSortDesc l).filter (fun c => c.score == s) =
      l.filter (fun c => c.score == s) := by
  induction l with
  | nil => rfl
  | cons x xs ih =>
      show (insertDesc x (stableSortDesc xs)).filter _ = _
      rw [filter_insertDesc]
      by_cases hx : x.score == s
      · simp [List.filter_cons, hx, ih]
      · simp [List.filter_cons, hx, ih]

/-! ## Claim-side scoring (C2) -/

/-- The filename stem in the claim's sense: the name minus its final
extension. -/
def specStem (name : String) : String :=
  let parts := pySplitChar '.' name
  if parts.length ≤ 1 then name else joinWith "." parts.dropLast

/-- Modelled from the claim's words (C2): 5 for a keyword exactly equal to
the filename stem, else 2 per keyword substring match. -/
def specCalcScore (filename : String) (keywords : List String) : Nat :=
  keywords.foldl
    (fun sc kw =>
      if kw = specStem filename then sc + 5
      else if strContains filename kw then sc + 2
      else sc)
    0

/-- Modelled from the claim's words (C2): every accepted log file gets a
filename score plus — for files under 10 MB regardless of the filename
score — a content score; total-zero files are dropped; top `maxResults`
by total score, stable. -/
def specFindRelatedLogs (files : List LogFile) (keywords : List String)
    (maxResults : Nat) : List String :=
  if keywords = [] then []
  else
    let cands := files.foldl
      (fun acc f =>
        if ¬ acceptedExt f.name then acc
        else
          let fnScore := specCalcScore (pyLower f.name) keywords
          let contentScore :=
            if f.size < 10 * 1024 * 1024 then scanLogContent f.lines keywords 500
            else 0
          if fnScore + contentScore > 0 then
            acc ++ [⟨f.path, fnScore + contentScore, fnScore, contentScore⟩]
          else acc)
      []
    ((stableSortDesc cands).take maxResults).map (fun c => c.path)

/-- A log file whose name matches no keyword but whose content does. -/
def exContentOnlyFile : LogFile := ⟨"x.log", "x.log", 100, ["volume"]⟩

/-- C2, counterexample.  A file `x.log` containing the keyword `volume` has
filename score 0 and (per the claim) content score 1, so the claim predicts
it is returned; the code never content-scans a file whose filename score is
0 and drops it. -/
theorem C2_counterexample_content_gate :
    findRelatedLogs [exContentOnlyFile] ["volume"] 5 = [] ∧
    specFindRelatedLogs [exContentOnlyFile] ["volume"] 5 = ["x.log"] ∧
    ¬ findRelatedLogs [exContentOnlyFile] ["volume"] 5 =
        specFindRelatedLogs [exContentOnlyFile] ["volume"] 5 := by
  decide

/-- C2 (amended): with nonempty keywords, the result is the top `maxResults`
paths of the stably score-sorted candidate list; a file becomes a candidate
exactly when its extension is accepted and its filename score is positive
(content is only scanned then, for files under 10 MB — `mkCandidate`), with 5
per keyword equal to the part of the filename before the first dot and 2 per
other substring match; the sort is descending by total score and preserves
walk order within equal scores. -/
theorem C2_log_relevance (files : List LogFile) (keywords : List String)
    (maxResults : Nat) :
    (keywords = [] → findRelatedLogs files keywords maxResults = []) ∧
    (¬ keywords = [] → findRelatedLogs files keywords maxResults =
      ((stableSortDesc (candidateList files keywords)).take maxResults).map
        (fun c => c.path)) ∧
    candidateList files keywords =
      (files.filter (fun f => acceptedExt f.name &&
        decide (0 < calcRelevanceScore (pyLower f.name) keywords))).map
        (mkCandidate keywords) ∧
    List.Pairwise (fun a b => b.score ≤ a.score)
      (stableSortDesc (candidateList files keywords)) ∧
    ∀ s : Nat,
      (stableSortDesc (candidateList files keywords)).filter
          (fun c => c.score == s) =
        (candidateList files keywords).filter (fun c => c.score == s) := by
  refine ⟨?_, ?_, candidateList_eq files keywords,
    stableSortDesc_pairwise _, fun s => filter_stableSortDesc _ s⟩
  · intro h
    unfold findRelatedLogs
    simp [h]
  · intro h
    unfold findRelatedLogs
    simp [h]

/-- A log file matched both by name (stem) and content. -/
def exVolumeFile : LogFile := ⟨"volume.log", "volume.log", 100, ["volume error"]⟩

/-- C2 witness: the keyword `volume` finds `volume.log` (filename score 5,
content score 3). -/
theorem C2_log_relevance_witness :
    findRelatedLogs [exVolumeFile] ["volume"] 5 = ["volume.log"] := by
  rw [(C2_log_relevance [exVolumeFile] ["volume"] 5).2.1 (by decide)]
  decide

/-! ## Streaming bridge (analysis_service/server.py, `event_stream`)

The backend stream is modelled by the chunks it yielded before finishing,
plus an optional error message when it raised instead of finishing.  The
bridge wraps each chunk as one SSE event, surfaces the error as one event,
and the `finally` block emits the terminal sentinel unconditionally. -/

def hexDigit (n : Nat) : Char :=
  if n < 10 then Char.ofNat (48 + n) else Char.ofNat (97 + n - 10)

def hex4 (n : Nat) : List Char :=
  [hexDigit (n / 4096 % 16), hexDigit (n / 256 % 16),
   hexDigit (n / 16 % 16), hexDigit (n % 16)]

/-- One character escaped as Python `json.dumps` (default `ensure_ascii`)
renders it inside a JSON string. -/
def jsonEscapeChar (c : Char) : List Char :=
  if c = '"' then ['\\', '"']
  else if c = '\\' then ['\\', '\\']
  else if c = '\n' then ['\\', 'n']
  else if c = '\x0d' then ['\\', 'r']
  else if c = '\t' then ['\\', 't']
  else if c = '\x08' then ['\\', 'b']
  else if c = '\x0c' then ['\\', 'f']
  else if c.toNat < 32 || 126 < c.toNat then
    if c.toNat ≤ 65535 then '\\' :: 'u' :: hex4 c.toNat
    else
      ('\\' :: 'u' :: hex4 (55296 + (c.toNat - 65536) / 1024)) ++
        ('\\' :: 'u' :: hex4 (56320 + (c.toNat - 65536) % 1024))
  else [c]

/-- The characters of the JSON string literal for `s`. -/
def jsonStringData (s : String) : List Char :=
  '"' :: s.data.foldr (fun c acc => jsonEscapeChar c ++ acc) ['"']

/-- One SSE text event for a chunk. -/
def sseTextEvent (chunk : String) : String :=
  String.mk ("data: \x7b\"text\": ".data ++ jsonStringData chunk ++ "\x7d\n\n".data)

/-- One SSE error event for an exception message. -/
def sseErrorEvent (msg : String) : String :=
  String.mk ("data: \x7b\"error\": ".data ++ jsonStringData msg ++ "\x7d\n\n".data)

/-- The terminal sentinel event. -/
def doneEvent : String := "data: [DONE]\n\n"

/-- The event sequence produced by `event_stream` for a backend stream that
yielded `chunks` and then either finished (`err = none`) or raised. -/
def eventStream (chunks : List String) (err : Option String) : List String :=
  chunks.map sseTextEvent ++
    (match err with
     | some e => [sseErrorEvent e]
     | none => []) ++
    [doneEvent]

lemma sseTextEvent_ne_done (s : String) : sseTextEvent s ≠ doneEvent := by
  intro h
  have hd : "data: \x7b\"text\": ".data ++ jsonStringData s ++ "\x7d\n\n".data =
      doneEvent.data := congrArg String.data h
  have hpre : "data: \x7b\"text\": ".data <+: doneEvent.data := by
    rw [← hd, List.append_assoc]
    exact List.prefix_append _ _
  have hlen := hpre.length_le
  exact absurd hlen (by decide)

lemma sseErrorEvent_ne_done (s : String) : sseErrorEvent s ≠ doneEvent := by
  intro h
  have hd : "data: \x7b\"error\": ".data ++ jsonStringData s ++ "\x7d\n\n".data =
      doneEvent.data := congrArg String.data h
  have hpre : "data: \x7b\"error\": ".data <+: doneEvent.data := by
    rw [← hd, List.append_assoc]
    exact List.prefix_append _ _
  have hlen := hpre.length_le
  exact absurd hlen (by decide)

lemma done_not_mem_body (chunks : List String) (err : Option String) :
    doneEvent ∉ chunks.map sseTextEvent ++
      (match err with
       | some e => [sseErrorEvent e]
       | none => []) := by
  intro hmem
  rcases List.mem_append.mp hmem with hm | hm
  · rcases List.mem_map.mp hm with ⟨c, _, hc⟩
    exact sseTextEvent_ne_done c hc
  · rcases err with _ | e
    · simp at hm
    · simp at hm
      exact sseErrorEvent_ne_done e hm.symm

/-- C6: every event sequence the bridge produces is its body followed by
exactly one terminal `[DONE]` event; the body holds the chunk events (and
the one error event when the backend raised) and never contains the
sentinel, so no chunk event follows `[DONE]`. -/
theorem C6_stream_terminal (chunks : List String) (err : Option String) :
    eventStream chunks err =
      (chunks.map sseTextEvent ++
        (match err with
         | some e => [sseErrorEvent e]
         | none => [])) ++ [doneEvent] ∧
    doneEvent ∉ chunks.map sseTextEvent ++
      (match err with
       | some e => [sseErrorEvent e]
       | none => []) ∧
    (eventStream chunks err).count doneEvent = 1 ∧
    (eventStream chunks err).getLast? = some doneEvent := by
  refine ⟨by simp [eventStream], done_not_mem_body chunks err, ?_, ?_⟩
  · unfold eventStream
    rw [List.count_append]
    rw [List.count_eq_zero.mpr (done_not_mem_body chunks err)]
    simp
  · unfold eventStream
    simp

/-! ## PluginRegistry (analysis_service/plugins/registry.py)

The registry's dict is an insertion-ordered list of plugins with unique
names; assignment to an existing key replaces the value in place.  A
plugin's `initialize` behaviour under the supplied config is abstracted by
`initRaises`: the source wraps each `initialize` call in try/except and
keeps iterating, and the concrete plugins set `initialized = True` on
success and leave/set it `False` when they raise. -/

structure Plugin where
  name : String
  display_name : String
  supports_streaming : Bool
  initRaises : Bool
  initialized : Bool
deriving Repr, DecidableEq

/-- `PluginRegistry.register`: `self._plugins[plugin.name] = plugin`. -/
def register : List Plugin → Plugin → List Plugin
  | [], p => [p]
  | q :: rest, p =>
      if q.name == p.name then p :: rest else q :: register rest p

/-- `PluginRegistry.get`. -/
def regGet (reg : List Plugin) (name : String) : Option Plugin :=
  reg.find? (fun q => q.name == name)

structure PluginInfo where
  name : String
  display_name : String
  supports_streaming : Bool
  initialized : Bool
deriving Repr, DecidableEq

/-- `PluginRegistry.list_available`. -/
def listAvailable (reg : List Plugin) : List PluginInfo :=
  reg.map (fun p => ⟨p.name, p.display_name, p.supports_streaming, p.initialized⟩)

/-- One iteration of `initialize_all`: `await plugin.initialize(cfg)` inside
try/except. -/
def runInit (p : Plugin) : Plugin :=
  if p.initRaises then { p with initialized := false }
  else { p with initialized := true }

/-- `PluginRegistry.initialize_all`: every registered plugin is initialized
in turn; an exception is logged and the loop continues. -/
def initializeAll (reg : List Plugin) : List Plugin := reg.map runInit

lemma register_register (reg : List Plugin) (p q : Plugin)
    (h : p.name = q.name) :
    register (register reg p) q = register reg q := by
  have hpq : (p.name == q.name) = true := by simp [h]
  induction reg with
  | nil => simp [register, hpq]
  | cons r rest ih =>
      by_cases hr : (r.name == p.name) = true
      · have hrq : (r.name == q.name) = true := by
          rw [← h]
          exact hr
        simp [register, hr, hrq, hpq]
      · have hrq : ¬ (r.name == q.name) = true := by
          rw [← h]
          exact hr
        simp [register, hr, hrq, ih]

lemma regGet_register (reg : List Plugin) (q : Plugin) :
    regGet (register reg q) q.name = some q := by
  induction reg with
  | nil => simp [register, regGet, List.find?]
  | cons r rest ih =>
      by_cases hr : (r.name == q.name) = true
      · simp [register, hr, regGet, List.find?]
      · have hr2 : (r.name == q.name) = false := by
          simpa using hr
        simp only [register, regGet] at ih ⊢
        rw [if_neg hr]
        simp [List.find?_cons, hr2, ih]

/-- C7: registering twice under one name keeps only the later plugin (both
for `get` and for `list_available`), and `initialize_all` initializes every
plugin independently: each ends up initialized exactly when its own
`initialize` does not raise, regardless of the other plugins. -/
theorem C7_registry_semantics (reg : List Plugin) (p q : Plugin)
    (h : p.name = q.name) :
    register (register reg p) q = register reg q ∧
    regGet (register (register reg p) q) q.name = some q ∧
    listAvailable (register (register reg p) q) = listAvailable (register reg q) ∧
    ∀ reg' : List Plugin,
      (initializeAll reg').map (fun r => r.initialized) =
        reg'.map (fun r => !r.initRaises) := by
  have hrr := register_register reg p q h
  refine ⟨hrr, ?_, by rw [hrr], ?_⟩
  · rw [hrr]
    exact regGet_register reg q
  · intro reg'
    unfold initializeAll
    rw [List.map_map]
    apply List.map_congr_left
    intro r _
    unfold runInit
    by_cases hr : r.initRaises
    · simp [hr]
    · simp [hr]

def pluginOldGemini : Plugin := ⟨"gemini", "Gemini old", true, false, false⟩

def pluginNewGemini : Plugin := ⟨"gemini", "Gemini new", true, false, false⟩

def pluginBadClaude : Plugin := ⟨"claude", "Claude", true, true, false⟩

def pluginGoodMcp : Plugin := ⟨"mcp", "MCP", true, false, false⟩

/-- C7 witness: re-registering `gemini` yields the newer plugin, and a
raising `claude` plugin does not stop `mcp` from initializing. -/
theorem C7_registry_semantics_witness :
    regGet (register (register [] pluginOldGemini) pluginNewGemini) "gemini" =
      some pluginNewGemini ∧
    (initializeAll [pluginNewGemini, pluginBadClaude, pluginGoodMcp]).map
      (fun r => r.initialized) = [true, false, true] := by
  have h := C7_registry_semantics [] pluginOldGemini pluginNewGemini rfl
  refine ⟨h.2.1, ?_⟩
  rw [h.2.2.2 [pluginNewGemini, pluginBadClaude, pluginGoodMcp]]
  decide

end FileParser
